import Mathlib

/-!
Shallow embedding of the animation-performance subsystem of the Portfolio
repository (source file `src/lib/animation-queue.ts`).

JavaScript numbers (frame timestamps, frame times, budgets, priorities)
are modelled as rationals `ℚ`; times are milliseconds.  JavaScript `Set`
and the key set of `Map` are modelled as duplicate-free `List String`
(insert-if-absent, erase).  The browser's `requestAnimationFrame` handle
allocation is modelled by a counter `nextRafId` carried in the queue
state; `performance.now()` readings and `requestAnimationFrame`
timestamps are passed in as explicit arguments.
-/

namespace Portfolio

/-- Quality levels of the adaptive performance system, from the union type
`QualityLevel = 'ultra' | 'high' | 'medium' | 'low' | 'minimal'`. -/
inductive QualityLevel where
  | ultra
  | high
  | medium
  | low
  | minimal
deriving DecidableEq

/-- Numeric value of the enum member `AnimationPriority.CRITICAL` (0). -/
def AnimationPriority.CRITICAL : ℚ := 0

/-- Numeric value of the enum member `AnimationPriority.HIGH` (1). -/
def AnimationPriority.HIGH : ℚ := 1

/-- Numeric value of the enum member `AnimationPriority.MEDIUM` (2). -/
def AnimationPriority.MEDIUM : ℚ := 2

/-- Numeric value of the enum member `AnimationPriority.LOW` (3). -/
def AnimationPriority.LOW : ℚ := 3

/-- State of the singleton `AnimationPerformanceMonitor` (the adaptive one,
declared at the bottom of `animation-queue.ts`).  The `rafId` and
`callbacks` fields of the class are omitted: no claim observes them, and
callback invocation is modelled by the Boolean flag that `measureStep`
returns. -/
structure MonitorState where
  frameTimings : List ℚ
  lastFrameTime : ℚ
  droppedFrames : Nat
  qualityLevel : QualityLevel
  animationBudget : ℚ
  activeAnimations : List String
deriving DecidableEq

/-- Initial monitor state, from the field initializers of
`AnimationPerformanceMonitor`. -/
def MonitorState.init : MonitorState :=
  { frameTimings := []
    lastFrameTime := 0
    droppedFrames := 0
    qualityLevel := QualityLevel.high
    animationBudget := 1667/100
    activeAnimations := [] }

/-- Embeds `AnimationPerformanceMonitor.getAverageFrameTime`. -/
def getAverageFrameTime (s : MonitorState) : ℚ :=
  if s.frameTimings.length = 0 then 1667/100
  else s.frameTimings.sum / (s.frameTimings.length : ℚ)

/-- Embeds `AnimationPerformanceMonitor.adjustQuality`: classifies the
quality level from the average FPS of the rolling window together with
the fraction of dropped frames, resetting the dropped-frames counter.
The decimal literals 16.67, 0.05, 0.1, 0.15 and 33.33 of the source are
the rationals 1667/100, 1/20, 1/10, 3/20 and 3333/100. -/
def adjustQuality (s : MonitorState) : MonitorState :=
  let avgFrameTime := getAverageFrameTime s
  let fps := 1000 / avgFrameTime
  let droppedFrac := (s.droppedFrames : ℚ) / (s.frameTimings.length : ℚ)
  if fps ≥ 55 ∧ droppedFrac < 1/20 then
    { s with droppedFrames := 0, qualityLevel := QualityLevel.ultra,
             animationBudget := 1667/100 }
  else if fps ≥ 50 ∧ droppedFrac < 1/10 then
    { s with droppedFrames := 0, qualityLevel := QualityLevel.high,
             animationBudget := 20 }
  else if fps ≥ 40 ∧ droppedFrac < 3/20 then
    { s with droppedFrames := 0, qualityLevel := QualityLevel.medium,
             animationBudget := 25 }
  else if fps ≥ 30 then
    { s with droppedFrames := 0, qualityLevel := QualityLevel.low,
             animationBudget := 3333/100 }
  else
    { s with droppedFrames := 0, qualityLevel := QualityLevel.minimal,
             animationBudget := 50 }

/-- Embeds one invocation of the `measure` callback inside
`AnimationPerformanceMonitor.startMonitoring`, at `requestAnimationFrame`
timestamp `timestamp`.  The Boolean result records whether this frame
ran `adjustQuality` and `notifyCallbacks` (the source runs both exactly
when the sample buffer holds 60 entries).  The JavaScript truthiness
test `if (this.lastFrameTime)` is the test `lastFrameTime ≠ 0`. -/
def measureStep (s : MonitorState) (timestamp : ℚ) : MonitorState × Bool :=
  if s.lastFrameTime ≠ 0 then
    let frameTime := timestamp - s.lastFrameTime
    let pushed := s.frameTimings ++ [frameTime]
    let timings := if pushed.length > 60 then pushed.tail else pushed
    let dropped := if frameTime > 33 then s.droppedFrames + 1 else s.droppedFrames
    let s1 := { s with frameTimings := timings, droppedFrames := dropped,
                       lastFrameTime := timestamp }
    if timings.length = 60 then (adjustQuality s1, true) else (s1, false)
  else
    ({ s with lastFrameTime := timestamp }, false)

/-- Runs the monitor from its initial state over a list of
`requestAnimationFrame` timestamps. -/
def runMonitor (timestamps : List ℚ) : MonitorState :=
  timestamps.foldl (fun s t => (measureStep s t).1) MonitorState.init

/-- Membership-guarded insertion, the effect of JavaScript `Set.add`
(and of `Map.set` on the key set). -/
def setInsert (id : String) (l : List String) : List String :=
  if id ∈ l then l else l ++ [id]

/-- Embeds `AnimationPerformanceMonitor.registerAnimation`
(`Set.add`: insert if absent). -/
def registerAnimation (id : String) (s : MonitorState) : MonitorState :=
  { s with activeAnimations := setInsert id s.activeAnimations }

/-- Embeds `AnimationPerformanceMonitor.unregisterAnimation`
(`Set.delete`). -/
def unregisterAnimation (id : String) (s : MonitorState) : MonitorState :=
  { s with activeAnimations := s.activeAnimations.erase id }

/-- Embeds `AnimationPerformanceMonitor.getMaxConcurrentAnimations`.
The `default` arm of the source's switch is unreachable because the
union type is covered. -/
def getMaxConcurrentAnimations : QualityLevel → Nat
  | QualityLevel.ultra => 10
  | QualityLevel.high => 7
  | QualityLevel.medium => 5
  | QualityLevel.low => 3
  | QualityLevel.minimal => 1

/-- Embeds `AnimationPerformanceMonitor.shouldSkipAnimation`.  The
priority argument is a JavaScript number; the enum members are 0..3. -/
def shouldSkipAnimation (s : MonitorState) (priority : ℚ) : Bool :=
  let maxAnimations := getMaxConcurrentAnimations s.qualityLevel
  if s.activeAnimations.length ≥ maxAnimations then
    decide (priority ≥ 2)
  else
    match s.qualityLevel with
    | QualityLevel.minimal => decide (priority > 0)
    | QualityLevel.low => decide (priority > 1)
    | QualityLevel.medium => decide (priority > 2)
    | _ => false

/-- Embeds the data fields of `AnimationQueueItem`.  The `execute`,
`cleanup` and `timestamp` fields are omitted: callback outcomes are
modelled separately (see `CallbackOutcome`), and `timestamp` is written
by `add` but never read anywhere in the source. -/
structure AnimationQueueItem where
  id : String
  priority : ℚ
  duration : Option ℚ
deriving DecidableEq

/-- Embeds the fields of `AnimationQueue` together with the shared
singleton monitor.  `executing` holds the key set of the
`Map<string, AnimationQueueItem>`; `frameStartTime` is omitted because
elapsed time within a frame is passed explicitly to `hasFrameBudget`
and `processStep`. -/
structure QueueState where
  queue : List AnimationQueueItem
  executing : List String
  maxConcurrent : Nat
  isRunning : Bool
  frameBudget : ℚ
  rafId : Option Nat
  nextRafId : Nat
  completedAnimations : List String
  monitor : MonitorState
deriving DecidableEq

/-- Embeds `QueueOptions` (`maxConcurrent?`, `autoStart?`,
`frameBudget?`). -/
structure QueueOptions where
  maxConcurrent : Option Nat
  autoStart : Option Bool
  frameBudget : Option ℚ
deriving DecidableEq

/-- Embeds the body of `AnimationQueue.processQueue` that runs
synchronously: when running and no frame callback is pending, schedule
one (`requestAnimationFrame` handing out the next handle).  The loop
body that later runs inside the scheduled callback is `processStep`. -/
def processQueueSchedule (s : QueueState) : QueueState :=
  if s.isRunning then
    if s.rafId = none then
      { s with rafId := some s.nextRafId, nextRafId := s.nextRafId + 1 }
    else s
  else s

/-- Embeds `AnimationQueue.start`. -/
def start (s : QueueState) : QueueState :=
  if s.isRunning then s
  else processQueueSchedule { s with isRunning := true }

/-- Embeds the `AnimationQueue` constructor.  The JavaScript defaulting
idiom `options.maxConcurrent || 3` (and `options.frameBudget || 16.67`)
treats 0 as absent. -/
def mkQueue (opts : QueueOptions) (ms : MonitorState) : QueueState :=
  let base : QueueState :=
    { queue := []
      executing := []
      maxConcurrent := match opts.maxConcurrent with
        | some m => if m ≠ 0 then m else 3
        | none => 3
      isRunning := false
      frameBudget := match opts.frameBudget with
        | some b => if b ≠ 0 then b else 1667/100
        | none => 1667/100
      rafId := none
      nextRafId := 0
      completedAnimations := []
      monitor := ms }
  if opts.autoStart ≠ some false then start base else base

/-- Default queue: `new AnimationQueue({})` against a fresh monitor. -/
def defaultQueue : QueueState :=
  mkQueue { maxConcurrent := none, autoStart := none, frameBudget := none }
    MonitorState.init

/-- Embeds the insertion of `AnimationQueue.add`: `findIndex` of the
first queued item with strictly greater priority, then `splice` there,
or `push` when no such item exists. -/
def insertByPriority (item : AnimationQueueItem) :
    List AnimationQueueItem → List AnimationQueueItem
  | [] => [item]
  | x :: xs =>
    if x.priority > item.priority then item :: x :: xs
    else x :: insertByPriority item xs

/-- Embeds `AnimationQueue.add`: skip when the id is already completed
or executing; otherwise insert in priority order, register with the
monitor, and (when running) kick `processQueue`, which synchronously
only schedules the next frame callback. -/
def add (item : AnimationQueueItem) (s : QueueState) : QueueState :=
  if item.id ∈ s.completedAnimations ∨ item.id ∈ s.executing then s
  else
    let s1 := { s with queue := insertByPriority item s.queue,
                       monitor := registerAnimation item.id s.monitor }
    processQueueSchedule s1

/-- Embeds `AnimationQueue.pause`: stop running and cancel the pending
frame callback when there is one. -/
def pause (s : QueueState) : QueueState :=
  let s1 := { s with isRunning := false }
  if s1.rafId ≠ none then { s1 with rafId := none } else s1

/-- Embeds `AnimationQueue.hasFrameBudget`, with the elapsed time since
`frameStartTime` passed explicitly.  The budget is tightened by the
monitor's quality level; the `default` arm keeps the configured
`frameBudget`. -/
def hasFrameBudget (frameBudget : ℚ) (quality : QualityLevel)
    (elapsed : ℚ) : Bool :=
  let adjustedBudget : ℚ :=
    match quality with
    | QualityLevel.minimal => 8
    | QualityLevel.low => 12
    | QualityLevel.medium => 16
    | _ => frameBudget
  decide (elapsed < adjustedBudget)

/-- Outcome of one iteration of the `while` loop inside
`processQueue`'s frame callback. -/
inductive StepResult where
  | noAdmit
  | discarded (item : AnimationQueueItem)
  | started (item : AnimationQueueItem)
deriving DecidableEq

/-- Embeds one iteration of the `while` loop in the `process` closure of
`AnimationQueue.processQueue`: when the guard (non-empty queue, below
`maxConcurrent`, frame budget left) passes, `shift` the head; a head the
monitor says to skip is unregistered and dropped, otherwise
`executeAnimation` is invoked on it, which synchronously records it in
the `executing` map. -/
def processStep (elapsed : ℚ) (s : QueueState) : QueueState × StepResult :=
  match s.queue with
  | [] => (s, StepResult.noAdmit)
  | item :: rest =>
    if s.executing.length < s.maxConcurrent ∧
        hasFrameBudget s.frameBudget s.monitor.qualityLevel elapsed = true then
      if shouldSkipAnimation s.monitor item.priority then
        ({ s with queue := rest,
                  monitor := unregisterAnimation item.id s.monitor },
         StepResult.discarded item)
      else
        ({ s with queue := rest,
                  executing := setInsert item.id s.executing },
         StepResult.started item)
    else (s, StepResult.noAdmit)

/-- Outcome of running a JavaScript callback: it returns normally or it
throws. -/
inductive CallbackOutcome where
  | ok
  | throws
deriving DecidableEq

/-- Embeds `AnimationQueue.executeAnimation` for an item whose `execute`
callback has outcome `execOutcome` and whose optional `cleanup` callback
has outcome `cleanupOutcome` (`none` when the item has no cleanup).  The
`try`/`catch` around `execute` and around `cleanup` swallow a thrown
error after logging it with `console.error`, so the `finally` block
always runs: delete from `executing`, add to `completedAnimations`,
unregister from the monitor, and clear the completed set when it exceeds
100 entries.  The second component counts the `console.error` calls. -/
def executeAnimation (execOutcome : CallbackOutcome)
    (cleanupOutcome : Option CallbackOutcome)
    (item : AnimationQueueItem) (s : QueueState) : QueueState × Nat :=
  let s0 := { s with executing := setInsert item.id s.executing }
  let execErrors : Nat := match execOutcome with
    | CallbackOutcome.ok => 0
    | CallbackOutcome.throws => 1
  let cleanupErrors : Nat := match cleanupOutcome with
    | some CallbackOutcome.throws => 1
    | _ => 0
  let completed0 := setInsert item.id s0.completedAnimations
  let completed1 := if completed0.length > 100 then [] else completed0
  ({ s0 with executing := s0.executing.erase item.id,
             completedAnimations := completed1,
             monitor := unregisterAnimation item.id s0.monitor },
   execErrors + cleanupErrors)

/-- Embeds the `connection` object read by `isLowEndDevice`
(`navigator.connection`). -/
structure NetworkConnection where
  saveData : Bool
  effectiveType : String
deriving DecidableEq

/-- Embeds the browser globals read by `prefersReducedMotion` and
`isLowEndDevice` when `window` exists: the `matchMedia` result for
`(prefers-reduced-motion: reduce)`, and the optional `navigator`
fields. -/
structure BrowserEnv where
  matchMediaReducedMotion : Bool
  connection : Option NetworkConnection
  deviceMemory : Option ℚ
  hardwareConcurrency : Option Nat
deriving DecidableEq

/-- Embeds `prefersReducedMotion`; the argument is `none` when
`typeof window === 'undefined'` (server-side rendering). -/
def prefersReducedMotion : Option BrowserEnv → Bool
  | none => false
  | some env => env.matchMediaReducedMotion

/-- Embeds `isLowEndDevice`.  The early-return chain of the source is
the Boolean disjunction; JavaScript truthiness tests on `deviceMemory`
and `hardwareConcurrency` exclude 0. -/
def isLowEndDevice : Option BrowserEnv → Bool
  | none => false
  | some env =>
    prefersReducedMotion (some env) ||
    (match env.connection with
     | some c => c.saveData || c.effectiveType == "2g"
     | none => false) ||
    (match env.deviceMemory with
     | some d => decide (d ≠ 0) && decide (d < 4)
     | none => false) ||
    (match env.hardwareConcurrency with
     | some n => decide (n ≠ 0) && decide (n < 4)
     | none => false)

/-- Classification written from the words of the claim that the quality
level is a function of the rolling average frame time alone, via the
average FPS thresholds 55/50/40/30 (the refinement comparison point for
`adjustQuality`). -/
def specQualityFromFPS (fps : ℚ) : QualityLevel :=
  if fps ≥ 55 then QualityLevel.ultra
  else if fps ≥ 50 then QualityLevel.high
  else if fps ≥ 40 then QualityLevel.medium
  else if fps ≥ 30 then QualityLevel.low
  else QualityLevel.minimal

/-- Classification of the quality level from the average FPS together
with the dropped-frame fraction, as the amended claim states it. -/
def codeQualityClassify (fps droppedFrac : ℚ) : QualityLevel :=
  if fps ≥ 55 ∧ droppedFrac < 1/20 then QualityLevel.ultra
  else if fps ≥ 50 ∧ droppedFrac < 1/10 then QualityLevel.high
  else if fps ≥ 40 ∧ droppedFrac < 3/20 then QualityLevel.medium
  else if fps ≥ 30 then QualityLevel.low
  else QualityLevel.minimal

/-- Timestamp sequence whose 60 frame times are three 34ms frames
followed by fifty-seven 1ms frames. -/
def c1Stamps : List ℚ :=
  [1, 35, 69, 103] ++ (List.range 57).map (fun i => (104 : ℚ) + i)

/-- Monitor state with a full 60-sample window of 10ms frames. -/
def c1WitState : MonitorState :=
  { MonitorState.init with frameTimings := List.replicate 60 10 }

/-- Monitor state at minimal quality with no active animations. -/
def c2Monitor : MonitorState :=
  { MonitorState.init with qualityLevel := QualityLevel.minimal }

/-- Medium-priority item used to exercise the skip path. -/
def c2Item : AnimationQueueItem :=
  { id := "fx", priority := 2, duration := none }

/-- Queue holding `c2Item` while the monitor reports minimal quality. -/
def c2State : QueueState :=
  { defaultQueue with queue := [c2Item], monitor := c2Monitor }

/-- One hundred distinct completed-animation ids. -/
def c6Ids : List String := (List.range 100).map (fun n => toString n)

/-- Item whose execution completes while 100 ids are already in the
completed set. -/
def c6Item : AnimationQueueItem :=
  { id := "late", priority := 1, duration := none }

/-- Queue state whose completed set already holds `c6Ids`. -/
def c6State : QueueState :=
  { defaultQueue with completedAnimations := c6Ids }

/-- Item whose execute callback will throw. -/
def c6WitItem : AnimationQueueItem :=
  { id := "boom", priority := 1, duration := none }

/-- Item whose id is already recorded as completed. -/
def c7Item : AnimationQueueItem :=
  { id := "done", priority := 2, duration := none }

/-- Queue state that has already completed the id of `c7Item`. -/
def c7State : QueueState :=
  { defaultQueue with completedAnimations := ["done"] }

/-- Monitor state with a full sample window and a nonzero last frame
timestamp. -/
def c8State : MonitorState :=
  { MonitorState.init with frameTimings := List.replicate 60 10,
                           lastFrameTime := 5 }

/-!
The theorems below evaluate rational arithmetic inside the kernel, so the
irreducibility markers that the library puts on the `Rat` operations are
lifted locally.
-/

attribute [local semireducible] Rat.add Rat.sub Rat.mul Rat.inv

/-- Helper: at the default frame budget every quality-adjusted budget is
at most 16.67ms, so an elapsed time of at least 16.67ms exhausts it. -/
theorem hasFrameBudget_default_exhausted (q : QualityLevel) (elapsed : ℚ)
    (h : (1667 : ℚ)/100 ≤ elapsed) :
    hasFrameBudget (1667/100) q elapsed = false := by
  cases q <;>
    simp only [hasFrameBudget, decide_eq_false_iff_not, not_lt] <;>
    linarith

/-- C5: for every monitor state (every quality level and every
active-animation set), `shouldSkipAnimation` returns `false` at priority
`AnimationPriority.CRITICAL`: critical animations are never skipped. -/
theorem c5_critical_never_skipped (s : MonitorState) :
    shouldSkipAnimation s AnimationPriority.CRITICAL = false := by
  simp only [shouldSkipAnimation]
  split
  · decide
  · cases s.qualityLevel <;> decide

/-- C7: adding an item whose id is already completed or already
executing is a no-op: the whole state (queue, executing map, completed
set, monitor registry, scheduling fields) is returned unchanged. -/
theorem c7_add_known_id_noop (item : AnimationQueueItem) (s : QueueState)
    (h : item.id ∈ s.completedAnimations ∨ item.id ∈ s.executing) :
    add item s = s := by
  unfold add
  exact if_pos h

/-- Witness for C7 at a queue that already completed the id. -/
theorem c7_add_known_id_noop_witness : add c7Item c7State = c7State :=
  c7_add_known_id_noop c7Item c7State (Or.inl (by decide))

/-- C9: `pause` clears the running flag and the pending frame-callback
handle, and leaves the queued items, the executing map, the completed
set, `maxConcurrent` and `frameBudget` unchanged. -/
theorem c9_pause_only_cancels_scheduling (s : QueueState) :
    (pause s).isRunning = false ∧ (pause s).rafId = none ∧
    (pause s).queue = s.queue ∧ (pause s).executing = s.executing ∧
    (pause s).completedAnimations = s.completedAnimations ∧
    (pause s).maxConcurrent = s.maxConcurrent ∧
    (pause s).frameBudget = s.frameBudget := by
  cases hr : s.rafId <;> simp [pause, hr]

/-- C10: with no browser globals (`typeof window === 'undefined'`), the
guarded helpers return `false` without touching `window` or
`navigator`. -/
theorem c10_ssr_guards :
    prefersReducedMotion none = false ∧ isLowEndDevice none = false :=
  ⟨rfl, rfl⟩

/-- C3: the constructor's default frame budget is 16.67ms; at or past
16.67ms of elapsed frame time, `hasFrameBudget` is false for every
quality level (the quality-adjusted budgets never exceed the default),
and the processing loop admits nothing from the queue. -/
theorem c3_frame_budget_cutoff :
    defaultQueue.frameBudget = 1667/100 ∧
    (∀ (q : QualityLevel) (elapsed : ℚ), (1667 : ℚ)/100 ≤ elapsed →
      hasFrameBudget (1667/100) q elapsed = false) ∧
    (∀ (elapsed : ℚ) (s : QueueState), s.frameBudget = 1667/100 →
      (1667 : ℚ)/100 ≤ elapsed →
      processStep elapsed s = (s, StepResult.noAdmit)) := by
  refine ⟨rfl, fun q e h => hasFrameBudget_default_exhausted q e h, ?_⟩
  intro e s hfb he
  have hb : hasFrameBudget s.frameBudget s.monitor.qualityLevel e = false := by
    rw [hfb]
    exact hasFrameBudget_default_exhausted _ _ he
  unfold processStep
  cases hq : s.queue with
  | nil => rfl
  | cons item rest => simp [hb]

/-- Witness for C3 at 17ms elapsed. -/
theorem c3_frame_budget_cutoff_witness :
    hasFrameBudget (1667/100) QualityLevel.ultra 17 = false ∧
    processStep 17 defaultQueue = (defaultQueue, StepResult.noAdmit) :=
  ⟨c3_frame_budget_cutoff.2.1 QualityLevel.ultra 17 (by norm_num),
   c3_frame_budget_cutoff.2.2 17 defaultQueue rfl (by norm_num)⟩

/-- C2: skipping is upward closed in the numeric priority (larger means
less important) in every monitor state, and a dequeued item that the
monitor says to skip is dropped from the queue and unregistered rather
than executed. -/
theorem c2_priority_skip_monotone_and_discard :
    (∀ (s : MonitorState) (p q : ℚ), p < q →
      shouldSkipAnimation s p = true → shouldSkipAnimation s q = true) ∧
    (∀ (elapsed : ℚ) (s : QueueState) (item : AnimationQueueItem)
        (rest : List AnimationQueueItem),
      s.queue = item :: rest →
      s.executing.length < s.maxConcurrent →
      hasFrameBudget s.frameBudget s.monitor.qualityLevel elapsed = true →
      shouldSkipAnimation s.monitor item.priority = true →
      processStep elapsed s =
        ({ s with queue := rest,
                  monitor := unregisterAnimation item.id s.monitor },
         StepResult.discarded item)) := by
  constructor
  · intro s p q hpq hp
    obtain ⟨ft, lf, df, ql, ab, aa⟩ := s
    cases ql <;>
      simp only [shouldSkipAnimation, getMaxConcurrentAnimations] at hp ⊢ <;>
      split at hp <;>
      rename_i hcond <;>
      first
      | exact absurd hp Bool.false_ne_true
      | (first
         | rw [if_pos hcond]
         | rw [if_neg hcond]
         rw [decide_eq_true_eq] at hp ⊢
         linarith)
  · intro elapsed s item rest hq hcap hbud hskip
    simp [processStep, hq, hcap, hbud, hskip]

/-- Witness for C2: minimal quality skips priority 1, hence also 3, and
the discard step fires on a concrete queue. -/
theorem c2_priority_skip_monotone_and_discard_witness :
    shouldSkipAnimation c2Monitor 3 = true ∧
    processStep 0 c2State =
      ({ c2State with queue := [],
                      monitor := unregisterAnimation c2Item.id c2State.monitor },
       StepResult.discarded c2Item) :=
  ⟨c2_priority_skip_monotone_and_discard.1 c2Monitor 1 3 (by norm_num) (by decide),
   c2_priority_skip_monotone_and_discard.2 0 c2State c2Item [] rfl
     (by decide) (by decide) (by decide)⟩

/-- Helper: a member of an ordered insertion is the inserted item or a
member of the original list. -/
theorem mem_insertByPriority {item a : AnimationQueueItem}
    {l : List AnimationQueueItem} (h : a ∈ insertByPriority item l) :
    a = item ∨ a ∈ l := by
  induction l with
  | nil =>
    simp only [insertByPriority, List.mem_singleton] at h
    exact Or.inl h
  | cons x xs ih =>
    simp only [insertByPriority] at h
    split at h
    · rw [List.mem_cons] at h
      rcases h with h1 | h2
      · exact Or.inl h1
      · exact Or.inr h2
    · rw [List.mem_cons] at h
      rcases h with h1 | h2
      · exact Or.inr (by simp [h1])
      · rcases ih h2 with h3 | h4
        · exact Or.inl h3
        · exact Or.inr (by simp [h4])

/-- Helper: ordered insertion preserves sortedness by priority. -/
theorem insertByPriority_pairwise {item : AnimationQueueItem}
    {l : List AnimationQueueItem}
    (h : l.Pairwise (fun a b => a.priority ≤ b.priority)) :
    (insertByPriority item l).Pairwise
      (fun a b => a.priority ≤ b.priority) := by
  induction l with
  | nil => simp [insertByPriority]
  | cons x xs ih =>
    rw [List.pairwise_cons] at h
    simp only [insertByPriority]
    split
    · rename_i hgt
      rw [List.pairwise_cons]
      constructor
      · intro b hb
        rw [List.mem_cons] at hb
        rcases hb with rfl | hb
        · exact le_of_lt hgt
        · exact le_trans (le_of_lt hgt) (h.1 b hb)
      · exact List.Pairwise.cons h.1 h.2
    · rename_i hle
      rw [List.pairwise_cons]
      constructor
      · intro b hb
        rcases mem_insertByPriority hb with rfl | hb2
        · exact not_lt.mp hle
        · exact h.1 b hb2
      · exact ih h.2

/-- Helper: when every element's priority exceeds `p`, the filter at
priority `p` is empty. -/
theorem filter_priority_nil {p : ℚ} {l : List AnimationQueueItem}
    (h : ∀ a ∈ l, p < a.priority) :
    l.filter (fun it => it.priority == p) = [] := by
  rw [List.filter_eq_nil_iff]
  intro a ha
  simp only [beq_iff_eq]
  intro he
  have hlt := h a ha
  rw [he] at hlt
  exact lt_irrefl p hlt

/-- Helper: on a sorted list, ordered insertion appends the new item
after every existing item of equal priority, so the filter at any
priority gains the item at the end (when it matches). -/
theorem insertByPriority_filter (item : AnimationQueueItem) (p : ℚ)
    {l : List AnimationQueueItem}
    (h : l.Pairwise (fun a b => a.priority ≤ b.priority)) :
    (insertByPriority item l).filter (fun it => it.priority == p) =
      l.filter (fun it => it.priority == p) ++
        (if item.priority == p then [item] else []) := by
  induction l with
  | nil => simp [insertByPriority, List.filter_cons]
  | cons x xs ih =>
    rw [List.pairwise_cons] at h
    simp only [insertByPriority]
    split
    · rename_i hgt
      by_cases hip : item.priority = p
      · have hnil : (x :: xs).filter (fun it => it.priority == p) = [] := by
          apply filter_priority_nil
          intro a ha
          rw [List.mem_cons] at ha
          rcases ha with rfl | ha
          · rw [← hip]; exact hgt
          · refine lt_of_lt_of_le ?_ (h.1 a ha)
            rw [← hip]; exact hgt
        simp [List.filter_cons, hip, hnil]
      · simp [List.filter_cons, hip]
    · rename_i hle
      by_cases hxp : x.priority = p
      · simp [List.filter_cons, hxp, ih h.2]
      · simp [List.filter_cons, hxp, ih h.2]

/-- Helper: folding ordered insertions over a sorted accumulator yields
a sorted list whose per-priority filters are the accumulator's filters
followed by the inputs' filters in input order. -/
theorem foldl_insertByPriority_spec (items : List AnimationQueueItem) :
    ∀ (l : List AnimationQueueItem),
      l.Pairwise (fun a b => a.priority ≤ b.priority) →
      (items.foldl (fun acc i => insertByPriority i acc) l).Pairwise
          (fun a b => a.priority ≤ b.priority) ∧
        ∀ (p : ℚ),
          (items.foldl (fun acc i => insertByPriority i acc) l).filter
              (fun it => it.priority == p) =
            l.filter (fun it => it.priority == p) ++
              items.filter (fun it => it.priority == p) := by
  induction items with
  | nil => intro l hl; simp [hl]
  | cons i is ih =>
    intro l hl
    simp only [List.foldl_cons]
    obtain ⟨hs, hf⟩ := ih (insertByPriority i l) (insertByPriority_pairwise hl)
    refine ⟨hs, fun p => ?_⟩
    rw [hf p, insertByPriority_filter i p hl, List.filter_cons]
    by_cases hip : i.priority = p
    · simp [hip]
    · simp [hip]

/-- Helper: on a state with empty completed and executing sets, `add`
performs the ordered insertion and leaves both sets empty. -/
theorem add_queue_of_clean (item : AnimationQueueItem) (s : QueueState)
    (hc : s.completedAnimations = []) (he : s.executing = []) :
    (add item s).queue = insertByPriority item s.queue ∧
    (add item s).completedAnimations = [] ∧
    (add item s).executing = [] := by
  simp only [add, processQueueSchedule]
  rw [if_neg (by simp [hc, he])]
  split
  · split <;> simp [hc, he]
  · simp [hc, he]

/-- Helper: a fold of `add` calls over a clean state builds the queue by
repeated ordered insertion. -/
theorem foldl_add_queue (items : List AnimationQueueItem) :
    ∀ (s : QueueState), s.completedAnimations = [] → s.executing = [] →
      (items.foldl (fun st i => add i st) s).queue =
        items.foldl (fun acc i => insertByPriority i acc) s.queue := by
  induction items with
  | nil => intro s _ _; rfl
  | cons i is ih =>
    intro s hc he
    simp only [List.foldl_cons]
    obtain ⟨hq, hc2, he2⟩ := add_queue_of_clean i s hc he
    rw [ih (add i s) hc2 he2, hq]

/-- C4: after any sequence of `add` calls on a fresh queue, the queue
array is sorted by non-decreasing numeric priority, and the items of any
fixed priority appear exactly in their insertion (FIFO) order. -/
theorem c4_queue_sorted_and_fifo (items : List AnimationQueueItem) :
    ((items.foldl (fun st i => add i st) defaultQueue).queue).Pairwise
        (fun a b => a.priority ≤ b.priority) ∧
    ∀ (p : ℚ),
      ((items.foldl (fun st i => add i st) defaultQueue).queue).filter
          (fun it => it.priority == p) =
        items.filter (fun it => it.priority == p) := by
  rw [foldl_add_queue items defaultQueue rfl rfl]
  have hq0 : defaultQueue.queue = [] := rfl
  rw [hq0]
  obtain ⟨hs, hf⟩ := foldl_insertByPriority_spec items [] List.Pairwise.nil
  refine ⟨hs, fun p => ?_⟩
  rw [hf p]
  simp

set_option maxRecDepth 100000 in
/-- C1 counterexample: a completed 60-frame window (three 34ms frames,
then fifty-seven 1ms frames) whose average FPS is about 377 (≥ 55), yet
`adjustQuality` selects `high`, not the `ultra` that the
FPS-thresholds-only classification prescribes: the dropped-frame
fraction (3/60) also enters the decision. -/
theorem c1_counterexample :
    (runMonitor c1Stamps).frameTimings.length = 60 ∧
    (runMonitor c1Stamps).qualityLevel = QualityLevel.high ∧
    specQualityFromFPS
        (1000 / getAverageFrameTime (runMonitor c1Stamps)) =
      QualityLevel.ultra ∧
    (runMonitor c1Stamps).qualityLevel ≠
      specQualityFromFPS
        (1000 / getAverageFrameTime (runMonitor c1Stamps)) := by decide

/-- C1 (amended): for a completed 60-frame window, `adjustQuality` sets
the quality level as the classification of the window's average FPS
together with its dropped-frame fraction, with thresholds
55/0.05, 50/0.1, 40/0.15 and 30. -/
theorem c1_quality_from_fps_and_dropped (s : MonitorState)
    (h : s.frameTimings.length = 60) :
    (adjustQuality s).qualityLevel =
      codeQualityClassify (1000 / getAverageFrameTime s)
        ((s.droppedFrames : ℚ) / 60) := by
  simp only [adjustQuality, codeQualityClassify, h, Nat.cast_ofNat]
  split_ifs <;> rfl

/-- Witness for C1 at a full window of 10ms frames. -/
theorem c1_quality_from_fps_and_dropped_witness :
    (adjustQuality c1WitState).qualityLevel =
      codeQualityClassify (1000 / getAverageFrameTime c1WitState)
        ((c1WitState.droppedFrames : ℚ) / 60) :=
  c1_quality_from_fps_and_dropped c1WitState (by decide)

/-- Helper: quality adjustment never touches the sample buffer. -/
theorem adjustQuality_frameTimings (s : MonitorState) :
    (adjustQuality s).frameTimings = s.frameTimings := by
  simp only [adjustQuality]
  split_ifs <;> rfl

/-- Helper: one measured frame keeps the sample buffer within 60
entries. -/
theorem measureStep_length_le (s : MonitorState) (t : ℚ)
    (h : s.frameTimings.length ≤ 60) :
    (measureStep s t).1.frameTimings.length ≤ 60 := by
  by_cases hl : s.lastFrameTime ≠ 0
  · simp only [measureStep]
    rw [if_pos hl]
    by_cases hgt : (s.frameTimings ++ [t - s.lastFrameTime]).length > 60
    · rw [if_pos hgt]
      have hlen : (s.frameTimings ++ [t - s.lastFrameTime]).tail.length ≤ 60 := by
        simp only [List.length_tail, List.length_append, List.length_singleton]
        omega
      by_cases h60 :
          (s.frameTimings ++ [t - s.lastFrameTime]).tail.length = 60
      · rw [if_pos h60]
        simpa [adjustQuality_frameTimings] using le_of_eq h60
      · rw [if_neg h60]
        exact hlen
    · rw [if_neg hgt]
      have hlen : (s.frameTimings ++ [t - s.lastFrameTime]).length ≤ 60 :=
        Nat.le_of_not_lt hgt
      by_cases h60 : (s.frameTimings ++ [t - s.lastFrameTime]).length = 60
      · rw [if_pos h60]
        simpa [adjustQuality_frameTimings] using le_of_eq h60
      · rw [if_neg h60]
        exact hlen
  · simp only [measureStep]
    rw [if_neg hl]
    exact h

/-- Helper: when the buffer is full, a measured frame shifts the oldest
sample out and appends the new frame time. -/
theorem measureStep_shift (s : MonitorState) (t : ℚ)
    (hl : s.lastFrameTime ≠ 0) (h60 : s.frameTimings.length = 60) :
    (measureStep s t).1.frameTimings =
      s.frameTimings.tail ++ [t - s.lastFrameTime] := by
  have hpush : (s.frameTimings ++ [t - s.lastFrameTime]).length > 60 := by
    simp [h60]
  have htail : (s.frameTimings ++ [t - s.lastFrameTime]).tail =
      s.frameTimings.tail ++ [t - s.lastFrameTime] := by
    cases hft : s.frameTimings with
    | nil => rw [hft] at h60; simp at h60
    | cons a as => simp
  have htlen : (s.frameTimings ++ [t - s.lastFrameTime]).tail.length = 60 := by
    simp only [List.length_tail, List.length_append, List.length_singleton]
    omega
  simp only [measureStep]
  rw [if_pos hl, if_pos hpush, if_pos htlen, adjustQuality_frameTimings]
  exact htail

/-- Helper: the quality-adjustment-and-notify flag of a measured frame
is set exactly when a sample was recorded and the buffer then holds
exactly 60 samples. -/
theorem measureStep_flag (s : MonitorState) (t : ℚ) :
    (measureStep s t).2 = true ↔
      ((measureStep s t).1.frameTimings.length = 60 ∧
        s.lastFrameTime ≠ 0) := by
  by_cases hl : s.lastFrameTime ≠ 0
  · simp only [measureStep]
    rw [if_pos hl]
    by_cases hgt : (s.frameTimings ++ [t - s.lastFrameTime]).length > 60
    · rw [if_pos hgt]
      by_cases h60 :
          (s.frameTimings ++ [t - s.lastFrameTime]).tail.length = 60
      · rw [if_pos h60]
        simp [adjustQuality_frameTimings, h60, hl]
      · rw [if_neg h60]
        simp only [List.length_tail, List.length_append,
          List.length_singleton] at h60
        simp [hl]
        omega
    · rw [if_neg hgt]
      by_cases h60 : (s.frameTimings ++ [t - s.lastFrameTime]).length = 60
      · rw [if_pos h60]
        simp [adjustQuality_frameTimings, h60, hl]
      · rw [if_neg h60]
        simp only [List.length_append, List.length_singleton] at h60
        simp [hl]
        omega
  · simp only [measureStep]
    rw [if_neg hl]
    simp [hl]

/-- C8: the frame-time sample buffer never exceeds 60 entries; once it
is full, each new sample shifts the oldest one out; and the quality
adjustment plus subscriber notification fire exactly when a sample was
recorded and the buffer holds exactly 60 samples. -/
theorem c8_sample_buffer_bounded :
    (∀ (ts : List ℚ), (runMonitor ts).frameTimings.length ≤ 60) ∧
    (∀ (s : MonitorState) (t : ℚ), s.lastFrameTime ≠ 0 →
      s.frameTimings.length = 60 →
      (measureStep s t).1.frameTimings =
        s.frameTimings.tail ++ [t - s.lastFrameTime]) ∧
    (∀ (s : MonitorState) (t : ℚ),
      (measureStep s t).2 = true ↔
        ((measureStep s t).1.frameTimings.length = 60 ∧
          s.lastFrameTime ≠ 0)) := by
  refine ⟨?_, measureStep_shift, measureStep_flag⟩
  intro ts
  have hgen : ∀ (s : MonitorState), s.frameTimings.length ≤ 60 →
      (ts.foldl (fun s t => (measureStep s t).1) s).frameTimings.length ≤ 60 := by
    induction ts with
    | nil => exact fun s h => h
    | cons t ts ih =>
      intro s h
      simp only [List.foldl_cons]
      exact ih _ (measureStep_length_le s t h)
  exact hgen MonitorState.init (by decide)

/-- Witness for C8: a full buffer of 10ms samples shifts on the next
frame. -/
theorem c8_sample_buffer_bounded_witness :
    (measureStep c8State 7).1.frameTimings =
      c8State.frameTimings.tail ++ [7 - c8State.lastFrameTime] :=
  c8_sample_buffer_bounded.2.1 c8State 7 (by decide) (by decide)

/-- Helper: guarded insertion preserves duplicate freedom. -/
theorem setInsert_nodup {id : String} {l : List String} (h : l.Nodup) :
    (setInsert id l).Nodup := by
  unfold setInsert
  split
  · exact h
  · rename_i hmem
    simp [List.nodup_append, h, hmem]

set_option maxRecDepth 100000 in
/-- C6 counterexample: running an item whose execute callback throws
while 100 other ids are already completed ends with the completed set
cleared, so the item's id is NOT in `completedAnimations` afterwards
(the periodic cleanup in the same `finally` block wiped it). -/
theorem c6_counterexample :
    c6Ids.length = 100 ∧
    (executeAnimation CallbackOutcome.throws none c6Item
        c6State).1.completedAnimations = [] ∧
    c6Item.id ∉
      (executeAnimation CallbackOutcome.throws none c6Item
          c6State).1.completedAnimations := by decide

/-- C6 (amended): whatever the execute and cleanup callbacks do (throw
or return), the `finally` block runs: the item leaves the executing map,
it is unregistered from the monitor, the completed set becomes the
guarded insertion of its id (cleared entirely when that exceeds 100
entries), and at least one error is logged when something threw. -/
theorem c6_finally_always_runs (execOutcome : CallbackOutcome)
    (cleanupOutcome : Option CallbackOutcome) (item : AnimationQueueItem)
    (s : QueueState)
    (hthrow : execOutcome = CallbackOutcome.throws ∨
      cleanupOutcome = some CallbackOutcome.throws)
    (hex : s.executing.Nodup) (hact : s.monitor.activeAnimations.Nodup) :
    item.id ∉
      (executeAnimation execOutcome cleanupOutcome item s).1.executing ∧
    item.id ∉
      (executeAnimation execOutcome cleanupOutcome item
          s).1.monitor.activeAnimations ∧
    (executeAnimation execOutcome cleanupOutcome item
        s).1.completedAnimations =
      (if (setInsert item.id s.completedAnimations).length > 100 then []
       else setInsert item.id s.completedAnimations) ∧
    1 ≤ (executeAnimation execOutcome cleanupOutcome item s).2 := by
  refine ⟨?_, ?_, rfl, ?_⟩
  · simp only [executeAnimation]
    intro hmem
    have hnd : (setInsert item.id s.executing).Nodup := setInsert_nodup hex
    rw [List.Nodup.mem_erase_iff hnd] at hmem
    exact hmem.1 rfl
  · simp only [executeAnimation, unregisterAnimation]
    intro hmem
    rw [List.Nodup.mem_erase_iff hact] at hmem
    exact hmem.1 rfl
  · rcases hthrow with h | h
    · subst h
      simp [executeAnimation]
    · subst h
      simp [executeAnimation]

/-- Witness for C6 on a fresh queue with a throwing execute callback. -/
theorem c6_finally_always_runs_witness :
    c6WitItem.id ∉
      (executeAnimation CallbackOutcome.throws none c6WitItem
          defaultQueue).1.executing ∧
    c6WitItem.id ∉
      (executeAnimation CallbackOutcome.throws none c6WitItem
          defaultQueue).1.monitor.activeAnimations ∧
    (executeAnimation CallbackOutcome.throws none c6WitItem
        defaultQueue).1.completedAnimations =
      (if (setInsert c6WitItem.id defaultQueue.completedAnimations).length > 100
       then [] else setInsert c6WitItem.id defaultQueue.completedAnimations) ∧
    1 ≤ (executeAnimation CallbackOutcome.throws none c6WitItem defaultQueue).2 :=
  c6_finally_always_runs CallbackOutcome.throws none c6WitItem defaultQueue
    (Or.inl rfl) (by decide) (by decide)

end Portfolio
